import Mathlib

set_option maxHeartbeats 1000000

/-!
Verification of the AppsAI MCP server's tool-translation and dispatch layer.

The definitions below are a shallow embedding of the TypeScript sources:
  * `convertToMCPTool`, `getAllTools`, `executeToolCall` from the tool
    registry module (src/unnamed/part_000);
  * `ensureAuthenticated` from the server entry point (src/src/index.ts).
External collaborators (the Parse cloud-function backend, the API-key
validator) are passed in as function parameters; numbers are modelled as
rationals and JavaScript objects as ordered key-value lists.
-/

/-- Dynamic JSON value: the TypeScript `unknown` as it occurs in tool
parameter schemas, backend results and error payloads. Objects are ordered
key-value lists, matching JavaScript property insertion order. -/
inductive Json where
  | null
  | bool (b : Bool)
  | num (q : ℚ)
  | str (s : String)
  | arr (elems : List Json)
  | obj (fields : List (String × Json))

/-- JavaScript truthiness of a value: `null`, `false`, `0` and `""` are
falsy; every object and array is truthy. -/
def Json.truthy : Json → Bool
  | .null => false
  | .bool b => b
  | .num q => if q = 0 then false else true
  | .str s => if s = "" then false else true
  | .arr _ => true
  | .obj _ => true

/-- Property access `o.k` on an object's field list: the value of the first
entry whose key is `k` (JavaScript objects never hold duplicate keys, so the
first entry is the entry). -/
def getKey : List (String × Json) → String → Option Json
  | [], _ => none
  | p :: ps, k => if p.1 = k then some p.2 else getKey ps k

/-- Does the field list contain the key `k`? -/
def hasKey (o : List (String × Json)) (k : String) : Bool :=
  o.any (fun p => p.1 = k)

/-- JavaScript truthiness of the property access `o.k`: a missing property
reads as `undefined`, which is falsy. -/
def truthyKey (o : List (String × Json)) (k : String) : Bool :=
  match getKey o k with
  | some v => v.truthy
  | none => false

/-- One step of evaluating an object literal: define or overwrite the
property `k`. Per the JavaScript `[[Set]]` semantics, overwriting keeps the
property's original position; a fresh key is appended at the end. -/
def objSet (o : List (String × Json)) (k : String) (v : Json) : List (String × Json) :=
  if hasKey o k then o.map (fun p => if p.1 = k then (k, v) else p)
  else o ++ [(k, v)]

/-- Evaluation of a spread `\x7b ...base, ...src \x7d` (with `base` already
evaluated): fold the source's properties into the accumulator in order. -/
def objSpread (base src : List (String × Json)) : List (String × Json) :=
  src.foldl (fun acc p => objSet acc p.1 p.2) base

/-- The `parameters` field of an OpenAI-style tool definition
(`AITool.parameters` in the source): an object schema with ordered
properties, a required-name array, and the optional closed-schema flag
`additionalProperties`. -/
structure ToolParameters where
  type : String
  properties : List (String × Json)
  required : List String
  additionalProperties : Option Bool

/-- OpenAI-style tool definition fetched from the backend (`AITool`). -/
structure AITool where
  type : String
  name : String
  description : String
  parameters : ToolParameters

/-- The MCP-facing tool descriptor produced by the translator (`Tool`). -/
structure MCPTool where
  name : String
  description : String
  inputSchema : ToolParameters

/-- Tool categories are string tags at runtime (the TypeScript union type
`ToolCategory` is erased; `executeToolCall` casts an arbitrary substring to
it without validation). -/
abbrev ToolCategory := String

/-- The categories whose tools require a `projectId` parameter
(`CATEGORIES_REQUIRING_PROJECT_ID`). -/
def CATEGORIES_REQUIRING_PROJECT_ID : List ToolCategory :=
  ["canvas", "backend", "system", "mongodb", "agents",
   "marketplace", "domain", "team", "settings", "cost"]

/-- The property value injected for `projectId` by `convertToMCPTool`. -/
def projectIdProperty : Json :=
  .obj [("type", .str "string"),
        ("description", .str "The project ID to execute this tool on. Required. Use project_LIST_APPS to see available apps.")]

/-- The schema transformation inside `convertToMCPTool` (source lines
52-68): strip `additionalProperties`, and for categories requiring a
project id, inject the `projectId` property via the object literal
`\x7b projectId: ..., ...cleanParams.properties \x7d` when
`cleanParams.properties.projectId` is falsy, and prepend `"projectId"` to
`required` when not already a member. -/
def transformParams (params : ToolParameters) (category : ToolCategory) : ToolParameters :=
  let cleanParams : ToolParameters := { params with additionalProperties := none }
  if CATEGORIES_REQUIRING_PROJECT_ID.contains category then
    let props :=
      if !(truthyKey cleanParams.properties "projectId") then
        objSpread [("projectId", projectIdProperty)] cleanParams.properties
      else cleanParams.properties
    let req :=
      if !(cleanParams.required.contains "projectId") then
        "projectId" :: cleanParams.required
      else cleanParams.required
    { cleanParams with properties := props, required := req }
  else
    cleanParams

/-- `convertToMCPTool`: convert an OpenAI-style tool to MCP format, naming
it `category_toolName` and transforming its parameter schema. -/
def convertToMCPTool (tool : AITool) (category : ToolCategory) : MCPTool :=
  { name := category ++ "_" ++ tool.name,
    description := tool.description,
    inputSchema := transformParams tool.parameters category }

/-- A failure thrown by a `runCloudFunction` call: the message carried when
the thrown value is an `Error`, the optional numeric `code`, and the
optional structured `data` payload. -/
structure CloudError where
  message : Option String
  code : Option ℚ
  data : Option (List (String × Json))

/-- Outcome of the backend catalog fetch `runCloudFunction
('getMCPToolDefinitions', \x7b\x7d)`: on success, tool definitions grouped
by category as iterated by `Object.entries`. -/
inductive FetchResult where
  | ok (tools : List (ToolCategory × List AITool))
  | err (e : CloudError)

/-- `getAllTools`: convert every fetched definition; if the fetch throws,
the `catch` block logs and the accumulated (empty) list is returned. -/
def getAllTools (fetch : FetchResult) : List MCPTool :=
  match fetch with
  | .ok catalog =>
      catalog.foldl (fun acc ct => acc ++ ct.2.map (fun t => convertToMCPTool t ct.1)) []
  | .err _ => []

/-- Rendering of `JSON.stringify` output (whitespace layout aside): the
serialized text placed into a response's content block. -/
def Json.render : Json → String
  | .null => "null"
  | .bool true => "true"
  | .bool false => "false"
  | .num q => toString q
  | .str s => "\x22" ++ s ++ "\x22"
  | .arr elems => "[" ++ String.intercalate "," (elems.attach.map (fun e => e.1.render)) ++ "]"
  | .obj fields =>
      "\x7b" ++ String.intercalate ","
        (fields.attach.map (fun f => "\x22" ++ f.1.1 ++ "\x22:" ++ f.1.2.render)) ++ "\x7d"
decreasing_by
  · have := List.sizeOf_lt_of_mem e.2; simp at this ⊢; omega
  · obtain ⟨⟨k, v⟩, hm⟩ := f
    have := List.sizeOf_lt_of_mem hm
    simp at this ⊢
    omega

/-- Decimal rendering of `q.toFixed(2)` as used in the payment message. -/
def toFixed2 (q : ℚ) : String :=
  let n : ℤ := round (q * 100)
  let sign := if n < 0 then "-" else ""
  let m := n.natAbs
  sign ++ toString (m / 100) ++ "." ++ (if m % 100 < 10 then "0" else "") ++ toString (m % 100)

/-- Extraction `(errorData?.k as number) || dflt` for a numeric-or-absent
field: a present nonzero numeric value is kept, anything else (absent
field, absent data, zero) falls back to the default. -/
def numFieldOr (data : Option (List (String × Json))) (k : String) (dflt : ℚ) : ℚ :=
  match data with
  | none => dflt
  | some d =>
    match getKey d k with
    | some (.num q) => if q = 0 then dflt else q
    | _ => dflt

/-- Extraction `(errorData?.k as string) || dflt` for a string-or-absent
field. -/
def strFieldOr (data : Option (List (String × Json))) (k : String) (dflt : String) : String :=
  match data with
  | none => dflt
  | some d =>
    match getKey d k with
    | some (.str s) => if s = "" then dflt else s
    | _ => dflt

/-- The `payment` sub-object of the x402 payment info. -/
structure PaymentDetails where
  shortfall : ℚ
  current : ℚ
  required : ℚ
  resourceType : String
  minimumTopUp : ℚ
  recommendedTopUp : ℚ

/-- The structured x402 `paymentInfo` object built in `executeToolCall`'s
402 branch (source lines 145-176). -/
structure PaymentInfo where
  error : String
  code : ℚ
  message : String
  x402PaymentRequired : Bool
  x402Endpoint : String
  payment : PaymentDetails
  supportedNetworks : List String
  acceptedTokens : List String
  creditRate : ℚ
  addFundsUrl : String
  apiEndpoints : List (String × String)

/-- Build the x402 payment info from the failure's `data` payload (source
lines 138-176): default shortfall 10, current 0, required falling back to
the shortfall, resource type "general"; `minimumTopUp =
Math.max(10, Math.ceil(shortfall))` and `recommendedTopUp =
Math.max(25, Math.ceil(shortfall * 1.2))`. -/
def buildPaymentInfo (errorData : Option (List (String × Json))) : PaymentInfo :=
  let shortfall := numFieldOr errorData "shortfall" 10
  let current := numFieldOr errorData "current" 0
  let required := numFieldOr errorData "required" shortfall
  let resourceType := strFieldOr errorData "resourceType" "general"
  { error := "INSUFFICIENT_BALANCE",
    code := 402,
    message := "Insufficient credits. Required: $" ++ toFixed2 required ++
               ", Available: $" ++ toFixed2 current,
    x402PaymentRequired := true,
    x402Endpoint := "https://internal.appsai.com/x402/pay",
    payment :=
      { shortfall := shortfall, current := current, required := required,
        resourceType := resourceType,
        minimumTopUp := max 10 (⌈shortfall⌉ : ℚ),
        recommendedTopUp := max 25 (⌈shortfall * (6 / 5)⌉ : ℚ) },
    supportedNetworks := ["ethereum", "base", "arbitrum", "polygon"],
    acceptedTokens := ["USDC"],
    creditRate := 1,
    addFundsUrl := "https://appsai.com/billing",
    apiEndpoints :=
      [("getPaymentInfo", "https://internal.appsai.com/server/functions/getCryptoPaymentInfo"),
       ("getPaymentRequirements", "https://internal.appsai.com/server/functions/getX402PaymentRequirements"),
       ("addFundsCrypto", "https://internal.appsai.com/server/functions/addFundsCrypto")] }

/-- The JSON object literal holding a `PaymentInfo`, as it is built before
being stringified into the response text. -/
def PaymentInfo.toJson (p : PaymentInfo) : Json :=
  .obj [("error", .str p.error),
        ("code", .num p.code),
        ("message", .str p.message),
        ("x402PaymentRequired", .bool p.x402PaymentRequired),
        ("x402Endpoint", .str p.x402Endpoint),
        ("payment", .obj
          [("shortfall", .num p.payment.shortfall),
           ("current", .num p.payment.current),
           ("required", .num p.payment.required),
           ("resourceType", .str p.payment.resourceType),
           ("minimumTopUp", .num p.payment.minimumTopUp),
           ("recommendedTopUp", .num p.payment.recommendedTopUp)]),
        ("supportedNetworks", .arr (p.supportedNetworks.map .str)),
        ("acceptedTokens", .arr (p.acceptedTokens.map .str)),
        ("creditRate", .num p.creditRate),
        ("addFundsUrl", .str p.addFundsUrl),
        ("apiEndpoints", .obj (p.apiEndpoints.map (fun kv => (kv.1, .str kv.2))))]

/-- One content block of a response envelope. -/
structure ContentBlock where
  type : String
  text : String
deriving DecidableEq, Repr

/-- The uniform response envelope returned by `executeToolCall`; `isError`
is an optional field, omitted (`none`) on success. -/
structure Envelope where
  content : List ContentBlock
  isError : Option Bool
deriving DecidableEq, Repr

/-- Outcome of a `runCloudFunction` backend call. -/
inductive CloudResult where
  | ok (value : Json)
  | err (e : CloudError)

/-- `error instanceof Error ? error.message : 'Unknown error'`. -/
def errMessage (e : CloudError) : String :=
  e.message.getD "Unknown error"

/-- `toolName.indexOf(c)` on the name's character list. -/
def indexOfChar (c : Char) : List Char → Option Nat
  | [] => none
  | x :: xs => if x = c then some 0 else (indexOfChar c xs).map (· + 1)

/-- The tool-name parse of `executeToolCall` (source lines 110-119): locate
the first underscore; if none, fail; otherwise the category is
`substring(0, i)` and the action name `substring(i + 1)`. -/
def splitToolName (toolName : String) : Option (String × String) :=
  match indexOfChar '_' toolName.data with
  | none => none
  | some i => some (⟨toolName.data.take i⟩, ⟨toolName.data.drop (i + 1)⟩)

/-- `executeToolCall` (source lines 104-189): parse the tool name, forward
one `executeMCPTool` backend call, and shape the result or failure into an
envelope; the second component records the single backend invocation made
(function name and parameter object), `none` when no call was attempted. -/
def executeToolCall (backend : String → Json → CloudResult)
    (toolName : String) (args : Json) (userId : String) :
    Envelope × Option (String × Json) :=
  match splitToolName toolName with
  | none =>
      ({ content := [⟨"text", "Invalid tool name format: " ++ toolName⟩],
         isError := some true }, none)
  | some (category, name) =>
      let callParams : Json :=
        .obj [("category", .str category), ("tool", .str name),
              ("params", args), ("userId", .str userId)]
      let env : Envelope :=
        match backend "executeMCPTool" callParams with
        | .ok result =>
            { content := [⟨"text", result.render⟩], isError := none }
        | .err e =>
            if e.code = some 402 then
              { content := [⟨"text", (buildPaymentInfo e.data).toJson.render⟩],
                isError := some true }
            else
              { content := [⟨"text", "Error executing " ++ toolName ++ ": " ++ errMessage e⟩],
                isError := some true }
      (env, some ("executeMCPTool", callParams))

/-- Result of the `validateAPIKey` collaborator. -/
structure ValidateResult where
  valid : Bool
  userId : Option String
  error : Option String

/-- Outcome of one `ensureAuthenticated` call: the returned user id (which
the non-null assertion `result.userId!` leaves possibly absent at runtime)
or the thrown error message. -/
inductive AuthResult where
  | ok (userId : Option String)
  | err (msg : String)
deriving DecidableEq, Repr

/-- JavaScript truthiness of a `string | null` slot: `null`, `undefined`
and `""` are falsy. -/
def strTruthy : Option String → Bool
  | some s => if s = "" then false else true
  | none => false

/-- `ensureAuthenticated` (src/src/index.ts lines 35-52), with the module
state `cachedUserId` passed explicitly. Returns the call's outcome, the
state afterwards, and how many times the validation collaborator was
invoked during the call (0 or 1). -/
def ensureAuthenticated (apiKey : Option String) (validate : String → ValidateResult)
    (cachedUserId : Option String) : AuthResult × Option String × Nat :=
  if strTruthy cachedUserId then
    (.ok cachedUserId, cachedUserId, 0)
  else if !(strTruthy apiKey) then
    (.err "APPSAI_API_KEY environment variable is required", cachedUserId, 0)
  else
    let result := validate (apiKey.getD "")
    if !result.valid then
      let msg :=
        match result.error with
        | some e => if e = "" then "Invalid API key" else e
        | none => "Invalid API key"
      (.err msg, cachedUserId, 1)
    else
      (.ok result.userId, result.userId, 1)

/-- `n` successive `ensureAuthenticated` calls threading the cache slot:
the list of outcomes, the final state, and the total number of validation
invocations. -/
def ensureAuthenticatedN (apiKey : Option String) (validate : String → ValidateResult) :
    Nat → Option String → List AuthResult × Option String × Nat
  | 0, st => ([], st, 0)
  | n + 1, st =>
      let r := ensureAuthenticated apiKey validate st
      let rest := ensureAuthenticatedN apiKey validate n r.2.1
      (r.1 :: rest.1, rest.2.1, r.2.2 + rest.2.2)

/-! ### Helper lemmas -/

theorem indexOfChar_eq_none {c : Char} {l : List Char} (h : c ∉ l) :
    indexOfChar c l = none := by
  induction l with
  | nil => rfl
  | cons x xs ih =>
      simp only [List.mem_cons, not_or] at h
      simp only [indexOfChar, if_neg (fun hx : x = c => h.1 hx.symm), ih h.2, Option.map_none']

theorem indexOfChar_append_cons {c : Char} {l : List Char} (h : c ∉ l) (r : List Char) :
    indexOfChar c (l ++ c :: r) = some l.length := by
  induction l with
  | nil => simp [indexOfChar]
  | cons x xs ih =>
      simp only [List.mem_cons, not_or] at h
      simp only [List.cons_append, indexOfChar, if_neg (fun hx : x = c => h.1 hx.symm),
        List.append_eq]
      rw [ih h.2]
      rfl

theorem splitToolName_no_underscore {toolName : String} (h : '_' ∉ toolName.data) :
    splitToolName toolName = none := by
  simp only [splitToolName, indexOfChar_eq_none h]

theorem splitToolName_append (a b : String) (h : '_' ∉ a.data) :
    splitToolName (a ++ "_" ++ b) = some (a, b) := by
  have hdata : (a ++ "_" ++ b).data = a.data ++ '_' :: b.data := by
    simp [String.data_append]
  have htake : (a.data ++ '_' :: b.data).take a.data.length = a.data :=
    List.take_left a.data ('_' :: b.data)
  have hdrop : (a.data ++ '_' :: b.data).drop (a.data.length + 1) = b.data := by
    have hsplit : a.data ++ '_' :: b.data = (a.data ++ ['_']) ++ b.data := by simp
    rw [hsplit]
    have hlen : (a.data ++ ['_']).length = a.data.length + 1 := by simp
    rw [← hlen]
    exact List.drop_left _ _
  unfold splitToolName
  rw [hdata, indexOfChar_append_cons h]
  dsimp only
  rw [htake, hdrop]

theorem not_hasKey_of_forall {o : List (String × Json)} {k : String}
    (h : ∀ p ∈ o, p.1 ≠ k) : hasKey o k = false := by
  simp only [hasKey, List.any_eq_false, decide_eq_true_eq]
  exact h

theorem forall_of_not_hasKey {o : List (String × Json)} {k : String}
    (h : hasKey o k = false) : ∀ p ∈ o, p.1 ≠ k := by
  simp only [hasKey, List.any_eq_false, decide_eq_true_eq] at h
  exact h

theorem hasKey_eq_false_of_not_mem_keys {o : List (String × Json)} {k : String}
    (h : k ∉ o.map Prod.fst) : hasKey o k = false :=
  not_hasKey_of_forall (fun _ hq hqk => h (hqk ▸ List.mem_map_of_mem Prod.fst hq))

theorem not_mem_keys_of_hasKey_eq_false {o : List (String × Json)} {k : String}
    (h : hasKey o k = false) : k ∉ o.map Prod.fst := by
  intro hk
  obtain ⟨p, hp, hpk⟩ := List.mem_map.mp hk
  exact forall_of_not_hasKey h p hp hpk

theorem getKey_eq_none_of_not_hasKey {o : List (String × Json)} {k : String}
    (h : hasKey o k = false) : getKey o k = none := by
  induction o with
  | nil => rfl
  | cons p ps ih =>
      have h' := forall_of_not_hasKey h
      simp only [getKey, if_neg (h' p (List.mem_cons_self p ps))]
      exact ih (not_hasKey_of_forall (fun q hq => h' q (List.mem_cons_of_mem p hq)))

theorem hasKey_eq_false_of_getKey_none {o : List (String × Json)} {k : String}
    (h : getKey o k = none) : hasKey o k = false := by
  induction o with
  | nil => rfl
  | cons p ps ih =>
      by_cases hp : p.1 = k
      · simp [getKey, hp] at h
      · simp only [getKey, if_neg hp] at h
        apply not_hasKey_of_forall
        intro q hq
        rcases List.mem_cons.mp hq with rfl | hq'
        · exact hp
        · exact forall_of_not_hasKey (ih h) q hq'

theorem getKey_eq_some_decomp {o : List (String × Json)} {k : String} {v : Json}
    (h : getKey o k = some v) :
    ∃ l r, o = l ++ (k, v) :: r ∧ hasKey l k = false := by
  induction o with
  | nil => simp [getKey] at h
  | cons p ps ih =>
      by_cases hp : p.1 = k
      · simp only [getKey, if_pos hp] at h
        have hv : p.2 = v := by injection h
        refine ⟨[], ps, ?_, rfl⟩
        simp [← hp, ← hv]
      · simp only [getKey, if_neg hp] at h
        obtain ⟨l, r, rfl, hl⟩ := ih h
        refine ⟨p :: l, r, rfl, ?_⟩
        apply not_hasKey_of_forall
        intro q hq
        rcases List.mem_cons.mp hq with rfl | hq'
        · exact hp
        · exact forall_of_not_hasKey hl q hq'

theorem objSpread_cons (acc : List (String × Json)) (p : String × Json)
    (src : List (String × Json)) :
    objSpread acc (p :: src) = objSpread (objSet acc p.1 p.2) src := rfl

theorem objSpread_append (acc l r : List (String × Json)) :
    objSpread acc (l ++ r) = objSpread (objSpread acc l) r :=
  List.foldl_append _ _ _ _

theorem objSet_fresh {acc : List (String × Json)} {k : String} (v : Json)
    (h : hasKey acc k = false) :
    objSet acc k v = acc ++ [(k, v)] := by
  simp [objSet, h]

theorem map_update_of_not_hasKey {l : List (String × Json)} {k : String}
    (hl : hasKey l k = false) (v : Json) :
    l.map (fun p => if p.1 = k then (k, v) else p) = l := by
  have h : ∀ p ∈ l, (if p.1 = k then (k, v) else p) = p := fun p hp =>
    if_neg (forall_of_not_hasKey hl p hp)
  rw [List.map_congr_left h]
  exact List.map_id l

theorem objSpread_fresh :
    ∀ (src acc : List (String × Json)),
      (∀ p ∈ src, hasKey acc p.1 = false) → (src.map Prod.fst).Nodup →
      objSpread acc src = acc ++ src
  | [], acc, _, _ => by simp [objSpread]
  | p :: src, acc, hfresh, hnd => by
      rw [objSpread_cons, objSet_fresh p.2 (hfresh p (List.mem_cons_self p src))]
      simp only [List.map_cons, List.nodup_cons] at hnd
      rw [objSpread_fresh src (acc ++ [(p.1, p.2)])
        (fun q hq => by
          have hq1 : hasKey acc q.1 = false := hfresh q (List.mem_cons_of_mem p hq)
          have hq2 : hasKey [(p.1, p.2)] q.1 = false := by
            apply not_hasKey_of_forall
            intro x hx
            rcases List.mem_singleton.mp hx with rfl
            intro hpq
            exact hnd.1 (hpq ▸ List.mem_map_of_mem Prod.fst hq)
          simp [hasKey, List.any_append] at hq1 hq2 ⊢
          exact ⟨hq1, hq2⟩)
        hnd.2]
      simp

theorem objSpread_single_present (k : String) (inj v : Json)
    (l r : List (String × Json))
    (hl : hasKey l k = false) (hr : hasKey r k = false)
    (hnd : ((l ++ r).map Prod.fst).Nodup) :
    objSpread [(k, inj)] (l ++ (k, v) :: r) = (k, v) :: (l ++ r) := by
  have hndl : (l.map Prod.fst).Nodup := by
    rw [List.map_append] at hnd
    exact hnd.sublist (List.sublist_append_left _ _)
  have hndr : (r.map Prod.fst).Nodup := by
    rw [List.map_append] at hnd
    exact hnd.sublist (List.sublist_append_right _ _)
  have hdisj : (l.map Prod.fst).Disjoint (r.map Prod.fst) := by
    rw [List.map_append] at hnd
    exact (List.nodup_append.mp hnd).2.2
  rw [objSpread_append]
  have h1 : objSpread [(k, inj)] l = (k, inj) :: l := by
    rw [objSpread_fresh l [(k, inj)]
      (fun p hp => not_hasKey_of_forall (fun x hx => by
        rcases List.mem_singleton.mp hx with rfl
        exact fun hkp => (forall_of_not_hasKey hl p hp) hkp.symm))
      hndl]
    rfl
  rw [h1, objSpread_cons]
  have h2 : objSet ((k, inj) :: l) k v = (k, v) :: l := by
    have hk : hasKey ((k, inj) :: l) k = true := by simp [hasKey]
    simp only [objSet, hk, if_true, List.map_cons, if_pos rfl]
    rw [map_update_of_not_hasKey hl v]
  rw [h2]
  have h3 : objSpread ((k, v) :: l) r = ((k, v) :: l) ++ r := by
    apply objSpread_fresh r ((k, v) :: l)
    · intro p hp
      apply not_hasKey_of_forall
      intro x hx
      rcases List.mem_cons.mp hx with rfl | hx'
      · exact fun hkp => (forall_of_not_hasKey hr p hp) hkp.symm
      · intro hxp
        exact hdisj (hxp ▸ List.mem_map_of_mem Prod.fst hx')
          (List.mem_map_of_mem Prod.fst hp)
    · exact hndr
  rw [h3]
  rfl

theorem truthyKey_of_getKey_none {o : List (String × Json)} {k : String}
    (h : getKey o k = none) : truthyKey o k = false := by
  simp [truthyKey, h]

theorem truthyKey_of_getKey_some {o : List (String × Json)} {k : String} {v : Json}
    (h : getKey o k = some v) : truthyKey o k = v.truthy := by
  simp [truthyKey, h]

/-! ### Claim theorems -/

/-- C7: a tool name with no underscore makes `executeToolCall` return an
error envelope reporting an invalid tool name format, and no backend call
is attempted. -/
theorem executeToolCall_no_underscore (backend : String → Json → CloudResult)
    (toolName : String) (args : Json) (userId : String) (h : '_' ∉ toolName.data) :
    executeToolCall backend toolName args userId =
      ({ content := [⟨"text", "Invalid tool name format: " ++ toolName⟩],
         isError := some true }, none) := by
  unfold executeToolCall
  rw [splitToolName_no_underscore h]

theorem executeToolCall_no_underscore_witness :
    executeToolCall (fun _ _ => .ok .null) "malformed" .null "user" =
      ({ content := [⟨"text", "Invalid tool name format: " ++ "malformed"⟩],
         isError := some true }, none) :=
  executeToolCall_no_underscore (fun _ _ => .ok .null) "malformed" .null "user" (by decide)

/-- C2: `executeToolCall` splits a tool name at the first underscore only:
for a name `a ++ "_" ++ b` with `a` underscore-free, the backend is invoked
with category `a` and tool `b` (`b` is never split again). -/
theorem executeToolCall_splits_at_first_underscore
    (a b : String) (backend : String → Json → CloudResult) (args : Json) (userId : String)
    (h : '_' ∉ a.data) :
    (executeToolCall backend (a ++ "_" ++ b) args userId).2 =
      some ("executeMCPTool",
        .obj [("category", .str a), ("tool", .str b),
              ("params", args), ("userId", .str userId)]) := by
  unfold executeToolCall
  rw [splitToolName_append a b h]

theorem executeToolCall_splits_witness :
    ("canvas" ++ "_" ++ "LIST_FILES" = "canvas_LIST_FILES") ∧
    ("system" ++ "_" ++ "DO_A_B" = "system_DO_A_B") ∧
    (executeToolCall (fun _ _ => .ok .null) ("canvas" ++ "_" ++ "LIST_FILES") .null "u").2 =
      some ("executeMCPTool",
        .obj [("category", .str "canvas"), ("tool", .str "LIST_FILES"),
              ("params", .null), ("userId", .str "u")]) ∧
    (executeToolCall (fun _ _ => .ok .null) ("system" ++ "_" ++ "DO_A_B") .null "u").2 =
      some ("executeMCPTool",
        .obj [("category", .str "system"), ("tool", .str "DO_A_B"),
              ("params", .null), ("userId", .str "u")]) :=
  ⟨rfl, rfl,
   executeToolCall_splits_at_first_underscore "canvas" "LIST_FILES" _ .null "u" (by decide),
   executeToolCall_splits_at_first_underscore "system" "DO_A_B" _ .null "u" (by decide)⟩

/-- C5: when the backend catalog fetch fails, `getAllTools` returns the
empty tool list instead of propagating the failure. -/
theorem getAllTools_empty_on_fetch_failure (e : CloudError) :
    getAllTools (.err e) = [] := rfl

/-- C4: the emitted schema never carries the closed-schema flag
`additionalProperties`, whatever the source schema held there. -/
theorem convertToMCPTool_strips_additionalProperties (tool : AITool) (category : ToolCategory) :
    (convertToMCPTool tool category).inputSchema.additionalProperties = none := by
  simp only [convertToMCPTool, transformParams]
  split <;> rfl

/-- C1 (amended): for a category requiring a project id and a schema with
no `projectId` property, the translated schema has `projectId` as its first
property; `"projectId"` is prepended as the first required entry provided
it did not already occur in the source `required` array (a `required` array
already containing `"projectId"` is left unchanged); for a category not
requiring a project id, properties and required are emitted unchanged. -/
theorem convertToMCPTool_projectId_injection (tool : AITool) (category : ToolCategory)
    (hnd : (tool.parameters.properties.map Prod.fst).Nodup) :
    (CATEGORIES_REQUIRING_PROJECT_ID.contains category = true →
      getKey tool.parameters.properties "projectId" = none →
      (convertToMCPTool tool category).inputSchema.properties =
        ("projectId", projectIdProperty) :: tool.parameters.properties ∧
      (tool.parameters.required.contains "projectId" = false →
        (convertToMCPTool tool category).inputSchema.required =
          "projectId" :: tool.parameters.required) ∧
      (tool.parameters.required.contains "projectId" = true →
        (convertToMCPTool tool category).inputSchema.required = tool.parameters.required)) ∧
    (CATEGORIES_REQUIRING_PROJECT_ID.contains category = false →
      (convertToMCPTool tool category).inputSchema.properties = tool.parameters.properties ∧
      (convertToMCPTool tool category).inputSchema.required = tool.parameters.required) := by
  constructor
  · intro hc hnone
    have hcm : category ∈ CATEGORIES_REQUIRING_PROJECT_ID := by simpa using hc
    have hhk : hasKey tool.parameters.properties "projectId" = false :=
      hasKey_eq_false_of_getKey_none hnone
    have htk : truthyKey tool.parameters.properties "projectId" = false :=
      truthyKey_of_getKey_none hnone
    have hspread : objSpread [("projectId", projectIdProperty)] tool.parameters.properties
        = ("projectId", projectIdProperty) :: tool.parameters.properties := by
      rw [objSpread_fresh _ _
        (fun p hp => not_hasKey_of_forall (fun x hx => by
          rcases List.mem_singleton.mp hx with rfl
          exact fun h => (forall_of_not_hasKey hhk p hp) h.symm))
        hnd]
      rfl
    refine ⟨?_, ?_, ?_⟩
    · simp [convertToMCPTool, transformParams, hcm, htk, hspread]
    · intro hreq
      have hreqm : "projectId" ∉ tool.parameters.required := by simpa using hreq
      simp [convertToMCPTool, transformParams, hcm, hreqm]
    · intro hreq
      have hreqm : "projectId" ∈ tool.parameters.required := by simpa using hreq
      simp [convertToMCPTool, transformParams, hcm, hreqm]
  · intro hc
    have hcm : category ∉ CATEGORIES_REQUIRING_PROJECT_ID := by simpa using hc
    constructor <;> simp [convertToMCPTool, transformParams, hcm]

/-- A schema with no `projectId` property whose `required` array already
mentions `"projectId"`, not in first position. -/
def c1CexTool : AITool :=
  { type := "function", name := "TOOL", description := "d",
    parameters :=
      { type := "object", properties := [("x", .str "s")],
        required := ["x", "projectId"], additionalProperties := none } }

theorem convertToMCPTool_projectId_injection_cex :
    getKey c1CexTool.parameters.properties "projectId" = none ∧
    CATEGORIES_REQUIRING_PROJECT_ID.contains "canvas" = true ∧
    (convertToMCPTool c1CexTool "canvas").inputSchema.required = ["x", "projectId"] ∧
    ¬ (convertToMCPTool c1CexTool "canvas").inputSchema.required.head? = some "projectId" := by
  refine ⟨rfl, rfl, by decide, by decide⟩

/-- A schema for exercising the injection: one `path` property, `path`
required, no `projectId` anywhere. -/
def c1WitTool : AITool :=
  { type := "function", name := "READ_FILE", description := "read a file",
    parameters :=
      { type := "object", properties := [("path", .str "s")],
        required := ["path"], additionalProperties := some false } }

theorem convertToMCPTool_projectId_injection_witness :
    (convertToMCPTool c1WitTool "canvas").inputSchema.properties =
      ("projectId", projectIdProperty) :: c1WitTool.parameters.properties ∧
    (convertToMCPTool c1WitTool "canvas").inputSchema.required = ["projectId", "path"] := by
  have h := (convertToMCPTool_projectId_injection c1WitTool "canvas" (by decide)).1 rfl rfl
  exact ⟨h.1, h.2.1 rfl⟩

/-- C9: when a category requires a project id and the source schema already
declares a `projectId` property but does not list `"projectId"` in
`required`, the property's binding is preserved while `"projectId"` is
still prepended as the first required entry. -/
theorem convertToMCPTool_required_injection_independent
    (tool : AITool) (category : ToolCategory) (v : Json)
    (hnd : (tool.parameters.properties.map Prod.fst).Nodup)
    (hc : CATEGORIES_REQUIRING_PROJECT_ID.contains category = true)
    (hv : getKey tool.parameters.properties "projectId" = some v)
    (hr : tool.parameters.required.contains "projectId" = false) :
    getKey (convertToMCPTool tool category).inputSchema.properties "projectId" = some v ∧
    (convertToMCPTool tool category).inputSchema.required =
      "projectId" :: tool.parameters.required := by
  have hcm : category ∈ CATEGORIES_REQUIRING_PROJECT_ID := by simpa using hc
  constructor
  · by_cases ht : v.truthy
    · have htk : truthyKey tool.parameters.properties "projectId" = true := by
        rw [truthyKey_of_getKey_some hv, ht]
      simp [convertToMCPTool, transformParams, hcm, htk, hv]
    · have htk : truthyKey tool.parameters.properties "projectId" = false := by
        rw [truthyKey_of_getKey_some hv]
        exact Bool.not_eq_true v.truthy ▸ ht
      obtain ⟨l, r, hprops, hl⟩ := getKey_eq_some_decomp hv
      rw [hprops, List.map_append, List.map_cons] at hnd
      have hrk : hasKey r "projectId" = false := by
        have := (List.nodup_append.mp hnd).2.1
        rw [List.nodup_cons] at this
        exact hasKey_eq_false_of_not_mem_keys this.1
      have hndlr : ((l ++ r).map Prod.fst).Nodup := by
        rw [List.map_append]
        exact List.Nodup.sublist
          (List.Sublist.append_left (List.sublist_cons_self _ _) _) hnd
      have hspread := objSpread_single_present "projectId" projectIdProperty v l r hl hrk hndlr
      have htk' : truthyKey (l ++ ("projectId", v) :: r) "projectId" = false := hprops ▸ htk
      simp [convertToMCPTool, transformParams, hcm, htk', hprops, hspread, getKey]
  · have hrm : "projectId" ∉ tool.parameters.required := by simpa using hr
    simp [convertToMCPTool, transformParams, hcm, hrm]

/-- A schema that already declares a truthy `projectId` property but whose
`required` array does not mention it. -/
def c9WitTool : AITool :=
  { type := "function", name := "T9", description := "d",
    parameters :=
      { type := "object",
        properties := [("projectId", .obj [("type", .str "string")]), ("path", .str "s")],
        required := ["path"], additionalProperties := some true } }

theorem convertToMCPTool_required_injection_independent_witness :
    getKey (convertToMCPTool c9WitTool "system").inputSchema.properties "projectId" =
      some (.obj [("type", .str "string")]) ∧
    (convertToMCPTool c9WitTool "system").inputSchema.required = ["projectId", "path"] :=
  convertToMCPTool_required_injection_independent c9WitTool "system"
    (.obj [("type", .str "string")]) (by decide) rfl rfl rfl

/-- C8 (amended): for a category requiring a project id, a `projectId`
property declared with a truthy value is left entirely untouched (same
property list, no duplicate, no reordering); a falsy declared value keeps
its binding but is moved to the front by the re-injecting spread. In all
cases the schema transformation is idempotent. -/
theorem transformParams_existing_projectId_idempotent (category : ToolCategory) :
    (∀ (tool : AITool) (v : Json),
      CATEGORIES_REQUIRING_PROJECT_ID.contains category = true →
      getKey tool.parameters.properties "projectId" = some v →
      v.truthy = true →
      (convertToMCPTool tool category).inputSchema.properties = tool.parameters.properties) ∧
    (∀ p : ToolParameters, (p.properties.map Prod.fst).Nodup →
      transformParams (transformParams p category) category = transformParams p category) := by
  constructor
  · intro tool v hc hv hvt
    have hcm : category ∈ CATEGORIES_REQUIRING_PROJECT_ID := by simpa using hc
    have htk : truthyKey tool.parameters.properties "projectId" = true := by
      rw [truthyKey_of_getKey_some hv, hvt]
    simp [convertToMCPTool, transformParams, hcm, htk]
  · intro p hnd
    by_cases hcm : category ∈ CATEGORIES_REQUIRING_PROJECT_ID
    · have hreq2 : ∀ req : List String,
          "projectId" ∈ (if "projectId" ∈ req then req else "projectId" :: req) := by
        intro req
        by_cases h : "projectId" ∈ req
        · simp only [if_pos h]
          exact h
        · simp [h]
      rcases hcase : getKey p.properties "projectId" with _ | v
      · -- no projectId property: injection happens once, the injected value is truthy
        have hhk := hasKey_eq_false_of_getKey_none hcase
        have htk := truthyKey_of_getKey_none hcase
        have hspread : objSpread [("projectId", projectIdProperty)] p.properties
            = ("projectId", projectIdProperty) :: p.properties := by
          rw [objSpread_fresh _ _
            (fun q hq => not_hasKey_of_forall (fun x hx => by
              rcases List.mem_singleton.mp hx with rfl
              exact fun h => (forall_of_not_hasKey hhk q hq) h.symm))
            hnd]
          rfl
        have htk2 : truthyKey (("projectId", projectIdProperty) :: p.properties) "projectId"
            = true := by
          simp [truthyKey, getKey, projectIdProperty, Json.truthy]
        simp [transformParams, hcm, htk, hspread, htk2, hreq2]
      · by_cases hvt : v.truthy
        · -- truthy declared value: both passes leave the property list alone
          have htk : truthyKey p.properties "projectId" = true := by
            rw [truthyKey_of_getKey_some hcase, hvt]
          simp [transformParams, hcm, htk, hreq2]
        · -- falsy declared value: the spread is computed once and is stable
          have htk : truthyKey p.properties "projectId" = false := by
            rw [truthyKey_of_getKey_some hcase]
            exact Bool.not_eq_true v.truthy ▸ hvt
          obtain ⟨l, r, hprops, hl⟩ := getKey_eq_some_decomp hcase
          rw [hprops, List.map_append, List.map_cons] at hnd
          have hrk : hasKey r "projectId" = false := by
            have := (List.nodup_append.mp hnd).2.1
            rw [List.nodup_cons] at this
            exact hasKey_eq_false_of_not_mem_keys this.1
          have hndlr : ((l ++ r).map Prod.fst).Nodup := by
            rw [List.map_append]
            exact List.Nodup.sublist
              (List.Sublist.append_left (List.sublist_cons_self _ _) _) hnd
          have hspread := objSpread_single_present "projectId" projectIdProperty v l r hl hrk hndlr
          have htk' : truthyKey (l ++ ("projectId", v) :: r) "projectId" = false :=
            hprops ▸ htk
          have hvt' : v.truthy = false := Bool.not_eq_true v.truthy ▸ hvt
          have htk2 : truthyKey (("projectId", v) :: (l ++ r)) "projectId" = false := by
            simp [truthyKey, getKey, hvt']
          have hlr : ∀ q ∈ l ++ r, q.1 ≠ "projectId" := by
            intro q hq
            rcases List.mem_append.mp hq with hq' | hq'
            · exact forall_of_not_hasKey hl q hq'
            · exact forall_of_not_hasKey hrk q hq'
          have hspread2 : objSpread [("projectId", projectIdProperty)]
              (("projectId", v) :: (l ++ r)) = ("projectId", v) :: (l ++ r) := by
            rw [objSpread_cons]
            have hset : objSet [("projectId", projectIdProperty)] "projectId" v
                = [("projectId", v)] := by
              simp [objSet, hasKey]
            rw [hset, objSpread_fresh _ _
              (fun q hq => not_hasKey_of_forall (fun x hx => by
                rcases List.mem_singleton.mp hx with rfl
                exact fun h => (hlr q hq) h.symm))
              hndlr]
            rfl
          simp [transformParams, hcm, htk', hprops, hspread, htk2, hspread2, hreq2]
    · simp [transformParams, hcm]

/-- A schema declaring `projectId` with the falsy value `null`, after
another property. -/
def c8CexTool : AITool :=
  { type := "function", name := "T8", description := "d",
    parameters :=
      { type := "object",
        properties := [("a", .num 1), ("projectId", .null)],
        required := ["projectId"], additionalProperties := none } }

theorem transformParams_existing_projectId_idempotent_cex :
    getKey c8CexTool.parameters.properties "projectId" = some .null ∧
    CATEGORIES_REQUIRING_PROJECT_ID.contains "canvas" = true ∧
    (convertToMCPTool c8CexTool "canvas").inputSchema.properties.map Prod.fst =
      ["projectId", "a"] ∧
    c8CexTool.parameters.properties.map Prod.fst = ["a", "projectId"] ∧
    (convertToMCPTool c8CexTool "canvas").inputSchema.properties ≠
      c8CexTool.parameters.properties := by
  refine ⟨rfl, rfl, by decide, by decide, fun h => ?_⟩
  exact (by decide :
      ¬ (convertToMCPTool c8CexTool "canvas").inputSchema.properties.map Prod.fst =
        c8CexTool.parameters.properties.map Prod.fst)
    (congrArg (List.map Prod.fst) h)

/-- A schema already declaring a truthy `projectId` property, `projectId`
required. -/
def c8WitTool : AITool :=
  { type := "function", name := "T8W", description := "d",
    parameters :=
      { type := "object",
        properties := [("projectId", .obj [("type", .str "string")])],
        required := ["projectId"], additionalProperties := some false } }

theorem transformParams_existing_projectId_idempotent_witness :
    (convertToMCPTool c8WitTool "mongodb").inputSchema.properties =
      c8WitTool.parameters.properties ∧
    transformParams (transformParams c8WitTool.parameters "mongodb") "mongodb" =
      transformParams c8WitTool.parameters "mongodb" := by
  have h := transformParams_existing_projectId_idempotent "mongodb"
  exact ⟨h.1 c8WitTool (.obj [("type", .str "string")]) rfl rfl rfl,
         h.2 c8WitTool.parameters (by decide)⟩

/-- C3: a backend failure with status code 402 produces an error envelope
carrying the x402 payment info, whose top-up amounts satisfy
`minimumTopUp = max(10, ceil(shortfall))` and
`recommendedTopUp = max(25, ceil(shortfall * 1.2))`. -/
theorem executeToolCall_402_payment_formula
    (m : Option String) (d : List (String × Json)) (s : ℚ)
    (a b : String) (args : Json) (userId : String)
    (ha : '_' ∉ a.data)
    (hs : getKey d "shortfall" = some (.num s)) (hs0 : s ≠ 0) :
    (executeToolCall (fun _ _ => .err ⟨m, some 402, some d⟩) (a ++ "_" ++ b) args userId).1 =
      { content := [⟨"text", (buildPaymentInfo (some d)).toJson.render⟩],
        isError := some true } ∧
    (buildPaymentInfo (some d)).payment.minimumTopUp = max 10 (⌈s⌉ : ℚ) ∧
    (buildPaymentInfo (some d)).payment.recommendedTopUp = max 25 (⌈s * (6 / 5)⌉ : ℚ) := by
  have hsf : numFieldOr (some d) "shortfall" 10 = s := by simp [numFieldOr, hs, hs0]
  refine ⟨?_, ?_, ?_⟩
  · unfold executeToolCall
    rw [splitToolName_append a b ha]
    simp
  · simp [buildPaymentInfo, hsf]
  · simp [buildPaymentInfo, hsf]

/-- The error data of the claim's concrete instance. -/
def c3Data : List (String × Json) :=
  [("shortfall", .num 25), ("current", .num 0), ("required", .num 25)]

theorem executeToolCall_402_payment_formula_witness :
    (executeToolCall (fun _ _ => .err ⟨some "Insufficient balance", some 402, some c3Data⟩)
        ("canvas" ++ "_" ++ "EDIT_FILE") .null "u").1.isError = some true ∧
    (buildPaymentInfo (some c3Data)).payment.minimumTopUp = 25 ∧
    (buildPaymentInfo (some c3Data)).payment.recommendedTopUp = 30 := by
  have h := executeToolCall_402_payment_formula (some "Insufficient balance") c3Data 25
    "canvas" "EDIT_FILE" .null "u" (by decide) rfl (by norm_num)
  refine ⟨?_, ?_, ?_⟩
  · rw [h.1]
  · rw [h.2.1]
    norm_num
  · rw [h.2.2]
    norm_num

/-- Calls with a cache already holding a non-empty user id return it
without invoking validation. -/
theorem ensureAuthenticatedN_cached (apiKey : Option String)
    (validate : String → ValidateResult) (u : String) (hu : u ≠ "") :
    ∀ n, ensureAuthenticatedN apiKey validate n (some u) =
      (List.replicate n (.ok (some u)), some u, 0)
  | 0 => rfl
  | n + 1 => by
      have hst : strTruthy (some u) = true := by simp [strTruthy, hu]
      simp [ensureAuthenticatedN, ensureAuthenticated, hst,
        ensureAuthenticatedN_cached apiKey validate u hu n, List.replicate_succ]

/-- C6 (amended): with a configured non-empty credential accepted by the
validator with a non-empty user id, N calls invoke the validator exactly
once and all return the same cached identity. (An accepted empty-string
identity is falsy and would be re-validated on every call.) -/
theorem ensureAuthenticated_validates_once
    (k u : String) (validate : String → ValidateResult) (N : Nat)
    (hk : k ≠ "") (hvalid : (validate k).valid = true)
    (huid : (validate k).userId = some u) (hu : u ≠ "") (hN : 1 ≤ N) :
    (ensureAuthenticatedN (some k) validate N none).2.2 = 1 ∧
    (ensureAuthenticatedN (some k) validate N none).1 =
      List.replicate N (.ok (some u)) := by
  cases N with
  | zero => exact absurd hN (by omega)
  | succ n =>
      have hkt : strTruthy (some k) = true := by simp [strTruthy, hk]
      have h1 : ensureAuthenticated (some k) validate none = (.ok (some u), some u, 1) := by
        simp [ensureAuthenticated, strTruthy, hk, hvalid, huid]
      constructor <;>
        simp [ensureAuthenticatedN, h1,
          ensureAuthenticatedN_cached (some k) validate u hu n, List.replicate_succ]

/-- A validator that accepts with the (falsy) empty-string user id. -/
def c6Validate : String → ValidateResult := fun _ => ⟨true, some "", none⟩

theorem ensureAuthenticated_validates_once_cex :
    (c6Validate "key").valid = true ∧
    (ensureAuthenticatedN (some "key") c6Validate 2 none).2.2 = 2 :=
  ⟨rfl, rfl⟩

/-- Unfolding of a pair of successive calls, used below. -/
theorem ensureAuthenticatedN_two (apiKey : Option String)
    (validate : String → ValidateResult) (st : Option String) :
    (ensureAuthenticatedN apiKey validate 2 st).2.2 =
      (ensureAuthenticated apiKey validate st).2.2 +
      ((ensureAuthenticated apiKey validate
          (ensureAuthenticated apiKey validate st).2.1).2.2 + 0) := rfl

/-- C10: a failing `ensureAuthenticated` call (missing credential or
rejected validation) leaves the cache slot unchanged, so a later call with
a still-rejecting validator invokes validation again: two successive calls
on an unpopulated cache perform two validations. The cache is written only
by the success path. -/
theorem ensureAuthenticated_cache_unchanged_on_failure
    (apiKey : Option String) (validate : String → ValidateResult) (st : Option String) :
    (∀ msg, (ensureAuthenticated apiKey validate st).1 = .err msg →
      (ensureAuthenticated apiKey validate st).2.1 = st) ∧
    (∀ k, apiKey = some k → k ≠ "" → strTruthy st = false →
      (validate k).valid = false →
      (ensureAuthenticatedN apiKey validate 2 st).2.2 = 2) := by
  constructor
  · intro msg hmsg
    by_cases h1 : strTruthy st
    · simp [ensureAuthenticated, h1] at hmsg
    · by_cases h2 : strTruthy apiKey
      · by_cases h3 : (validate (apiKey.getD "")).valid
        · simp [ensureAuthenticated, h1, h2, h3] at hmsg
        · simp [ensureAuthenticated, h1, h2, h3]
      · simp [ensureAuthenticated, h1, h2]
  · intro k hk hkne hst hval
    subst hk
    have hkt : strTruthy (some k) = true := by simp [strTruthy, hkne]
    have hcall : ensureAuthenticated (some k) validate st =
        (.err (match (validate k).error with
               | some e => if e = "" then "Invalid API key" else e
               | none => "Invalid API key"), st, 1) := by
      simp [ensureAuthenticated, hst, hkt, hval]
    rw [ensureAuthenticatedN_two, hcall]
    simp [hcall]

/-- A validator accepting with a non-empty user id. -/
def c6WitValidate : String → ValidateResult := fun _ => ⟨true, some "user1", none⟩

theorem ensureAuthenticated_validates_once_witness :
    (ensureAuthenticatedN (some "key") c6WitValidate 3 none).2.2 = 1 ∧
    (ensureAuthenticatedN (some "key") c6WitValidate 3 none).1 =
      List.replicate 3 (.ok (some "user1")) :=
  ensureAuthenticated_validates_once "key" "user1" c6WitValidate 3
    (by decide) rfl rfl (by decide) (by omega)

/-- A validator rejecting every credential. -/
def c10Validate : String → ValidateResult := fun _ => ⟨false, none, some "bad key"⟩

theorem ensureAuthenticated_cache_unchanged_on_failure_witness :
    (ensureAuthenticated (some "k") c10Validate none).2.1 = none ∧
    (ensureAuthenticatedN (some "k") c10Validate 2 none).2.2 = 2 := by
  have h := ensureAuthenticated_cache_unchanged_on_failure (some "k") c10Validate none
  exact ⟨h.1 "bad key" rfl, h.2 "k" rfl (by decide) rfl rfl⟩
